import Mathlib

/-!
A verification development for `Figure_1_3_S3_Locations_WUP300K.py`, the single
script of the repository `billyhales/Guneralp_etal_2020_ERL`.

The script's computational core is embedded shallowly:

* numeric cell values are rationals (`ℚ`); Python's `float(x)` conversion of a
  CSV cell is modelled by an explicit valuation parameter `val : String → ℚ`,
  quantified in the theorems (the claims' own provisos restrict attention to
  cells that parse as numbers);
* the pseudo-random sampler `numpy.random.choice(npy, size=(bs_iter, N),
  replace=True)` is modelled by an explicit index source
  `pick : ℕ → ℕ → ℕ → ℕ` giving, for sample `d`, bootstrap iteration `i` and
  draw position `j`, the index of the drawn element; theorems quantify over
  all in-range realizations of `pick`;
* exceptions are `Except` errors; the heap effects of the two core functions
  are replayed against an explicit store (`Heap`) for the frame property.
-/

/-- A data row of the input CSV, after `split(",")`: a list of string cells. -/
abbrev Row := List String

/-- The blank-cell test of `loc_average` (source lines 200, 206, 210, 214, 219):
an entry is skipped exactly when it equals `""` or `" "`. -/
def isBlank (s : String) : Bool := s == "" || s == " "

/-- Source lines 177-180: the list of unique urban-agglomeration names, in
order of first occurrence (`if loc_name_unique.count(loc_name[i]) == 0:
loc_name_unique.append(loc_name[i])`). -/
def uniqueNames (loc_name : List String) : List String :=
  loc_name.foldl (fun acc x => if acc.contains x then acc else acc ++ [x]) []

/-- Source lines 188-193: the entries of one decade column belonging to the
rows whose location name (column 0) equals `name`, in row order.  `loc_name`
and `dataCol` are the location-name column and the decade column, which have
equal length, so the zip loses nothing. -/
def locEntries (loc_name dataCol : List String) (name : String) : List String :=
  ((loc_name.zip dataCol).filter (fun q => q.1 == name)).map Prod.snd

/-- Source lines 196-222, one decade column, one location: the running pair
`(sum_loc, sub_loc)` — the sum of `float(x)` over non-blank entries and the
count of blank entries. -/
def sumSub (val : String → ℚ) (vals : List String) : ℚ × ℕ :=
  vals.foldl
    (fun acc x => if isBlank x then (acc.1, acc.2 + 1) else (acc.1 + val x, acc.2))
    (0, 0)

/-- Source lines 224-236: the value appended for one location in one decade
column —  `sum_loc/(len(loc_index)-sub_loc)` when `len(loc_index)-sub_loc > 0`,
nothing otherwise. -/
def locContrib (val : String → ℚ) (vals : List String) : Option ℚ :=
  let p := sumSub val vals
  if vals.length - p.2 > 0 then some (p.1 / ((vals.length - p.2 : ℕ) : ℚ)) else none

/-- Source lines 187-236 for a single decade column: the per-location averages,
one entry per unique location name (in order of first occurrence) that has at
least one non-blank entry in the column. -/
def decadeList (val : String → ℚ) (loc_name dataCol : List String) : List ℚ :=
  (uniqueNames loc_name).filterMap (fun name =>
    locContrib val (locEntries loc_name dataCol name))

/-- The length of the shortest row: `zip(*rows)` truncates every column tuple
to this many columns. -/
def minRowLen : List Row → ℕ
  | [] => 0
  | r :: rs => rs.foldl (fun a q => min a q.length) r.length

/-- `list(zip(*rows))` (source lines 163, 169, 172): the column tuples of the
row list — column `i` exists for `i < minRowLen rows`, and holds row `r`'s
`i`-th cell for each row in row order. -/
def columns (rows : List Row) : List (List String) :=
  (List.range (minRowLen rows)).map (fun i => rows.map (fun r => r.getD i ""))

/-- The ways `loc_average` can raise: `IndexError` from
`list(zip(*regions[m]))[0]` on an empty zip, `ValueError` from unpacking a
slice with the wrong number of columns, and the explicit
`Exception("Number of decades should be 4 or 5.")`. -/
inductive LocErr
  | indexError
  | valueError
  | decadeError
deriving DecidableEq

/-- Source lines 161-242, `loc_average(regions, m, data_index_start,
data_index_end)`.  `val` models `float` on the (numeric) cells.  The order of
failure matches the source: `list(zip(*regions[m]))[0]` is evaluated first,
then the decade count is tested, then the slice is unpacked. -/
def loc_average (val : String → ℚ) (regions : List (List Row)) (m s e : ℕ) :
    Except LocErr (List (List ℚ)) :=
  let rows := regions.getD m []
  let cols := columns rows
  match cols with
  | [] => .error .indexError
  | loc_name :: _ =>
    if e - s = 4 ∨ e - s = 5 then
      let sliced := (cols.drop s).take (e - s)
      if sliced.length = e - s then
        .ok (sliced.map (fun dataCol => decadeList val loc_name dataCol))
      else .error .valueError
    else .error .decadeError

/-- Source lines 84-148, `bstrap(bs_iter, *data)`, with the sampler made
explicit: `pick d i j` is the index (into sample `d`) of the `j`-th draw of
bootstrap iteration `i`.  Sample `d` of size `N > 0` is first unit-scaled by
`numr8tr` (1 for four samples, 1000 for five; the source divides the fifth
sample by the literal `1000`, which equals `numr8tr` in the five-sample
branch), then each of the `bs_iter` bootstrap entries is the mean of `N`
drawn scaled values.  An empty sample yields `numpy.array([])`. -/
def bstrap (bs_iter : ℕ) (pick : ℕ → ℕ → ℕ → ℕ) (data : List (List ℚ)) :
    Except String (List (List ℚ)) :=
  if data.length = 4 ∨ data.length = 5 then
    let numr8tr : ℚ := if data.length = 4 then 1 else 1000
    .ok ((List.range data.length).map (fun d =>
      let ds := data.getD d []
      if 0 < ds.length then
        let scaled := ds.map (fun x => x / numr8tr)
        (List.range bs_iter).map (fun i =>
          ((List.range ds.length).map (fun j => scaled.getD (pick d i j) 0)).sum
            / (ds.length : ℚ))
      else []))
  else .error "Number of Decades should be 4 or 5"

/-- Source line 877: the prescribed order of region keywords. -/
def region_unique : List String :=
  ["N Am", "CS Am", "Europe", "Africa", "SW Asia", "SC Asia", "India", "China",
   "E Asia", "SE Asia"]

/-- Source lines 894-896: one group per region keyword, holding the data rows
whose third column (index 2) equals the keyword, in input order. -/
def regionsOf (data_items : List Row) : List (List Row) :=
  region_unique.map (fun region =>
    data_items.filter (fun data_line => data_line.getD 2 "" == region))

/-- Source line 900: for each region, the rows whose ninth column (index 8,
the 2010 population in thousands) exceeds 2000.0.  `val` models `float`. -/
def aboveregions (val : String → ℚ) (allregions : List (List Row)) :
    List (List Row) :=
  allregions.map (fun region_line =>
    region_line.filter (fun x => decide (2000 < val (x.getD 8 ""))))

/-- Source line 901: for each region, the rows whose ninth column is at most
2000.0. -/
def belowregions (val : String → ℚ) (allregions : List (List Row)) :
    List (List Row) :=
  allregions.map (fun region_line =>
    region_line.filter (fun x => decide (val (x.getD 8 "") ≤ 2000)))

/-- The index of the last occurrence of `c` in `cs`, if any (Python
`str.rfind`). -/
def lastIdx (c : Char) (cs : List Char) : Option ℕ :=
  (cs.enum.filterMap (fun q => if q.2 = c then some q.1 else none)).getLast?

/-- Trailing separators removed (Python `head.rstrip(sep)`). -/
def dropTrailingSlashes (cs : List Char) : List Char :=
  (cs.reverse.dropWhile (fun c => c == '/')).reverse

/-- `os.path.split`, POSIX flavour: split at the last separator; the head
keeps its trailing separators only when it consists of separators alone. -/
def posixSplit (p : String) : String × String :=
  let cs := p.toList
  match lastIdx '/' cs with
  | none => ("", p)
  | some k =>
    let head := cs.take (k + 1)
    let tail := cs.drop (k + 1)
    let head := if head.all (fun c => c == '/') then head else dropTrailingSlashes head
    (String.mk head, String.mk tail)

/-- `os.path.splitext`, POSIX flavour: the extension begins at the last dot
that lies after the last separator, provided some earlier character of the
final component is not itself a dot. -/
def posixSplitext (p : String) : String × String :=
  let cs := p.toList
  let base := match lastIdx '/' cs with
    | none => 0
    | some k => k + 1
  match lastIdx '.' cs with
  | none => (p, "")
  | some dotIdx =>
    if base ≤ dotIdx ∧
        ¬ ((cs.drop base).take (dotIdx - base)).all (fun c => c == '.') then
      (String.mk (cs.take dotIdx), String.mk (cs.drop dotIdx))
    else (p, "")

/-- `os.path.join` of two components, POSIX flavour. -/
def posixJoin (a b : String) : String :=
  if b.toList.headD ' ' == '/' then b
  else if a == "" || a.toList.getLast? == some '/' then a ++ b
  else a ++ "/" ++ b

/-- Source line 851: `input_file_path = os.path.split(input_file)[0]`. -/
def input_file_path (input_file : String) : String := (posixSplit input_file).1

/-- Source line 854: the summary file is `regional_location_summary` plus the
input file's extension, in the input file's directory. -/
def summary_output_file (input_file : String) : String :=
  posixJoin (input_file_path input_file)
    ("regional_location_summary" ++ (posixSplitext input_file).2)

/-- Source line 858: the bootstrap spreadsheet is
`regional_location_bstrap.xlsx` in the input file's directory. -/
def bstrap_output_file (input_file : String) : String :=
  posixJoin (input_file_path input_file) ("regional_location_bstrap" ++ ".xlsx")

/-- Source lines 439, 565, 732, 843: each figure is saved as
`os.path.join(os.path.split(ifile_path)[0], opic_string ++ suffix)` where the
suffix is one of `_rates_linear.png`, `_PD_linear.png`, `_rates_log.png`,
`_PD_log.png`. -/
def png_output_file (ifile_path opic_string suffix : String) : String :=
  posixJoin (posixSplit ifile_path).1 (opic_string ++ suffix)

/-- Source lines 906-921: the three cohort name stems, in execution order. -/
def opic_strings : List String :=
  ["regional_all_location", "regional_above_location", "regional_below_location"]

/-- The twelve PNG filenames the program writes, in execution order (for each
cohort: the two linear figures, then the two log figures). -/
def png_output_files (input_file : String) : List String :=
  (opic_strings.map (fun opic =>
    [png_output_file input_file opic "_rates_linear.png",
     png_output_file input_file opic "_PD_linear.png",
     png_output_file input_file opic "_rates_log.png",
     png_output_file input_file opic "_PD_log.png"])).flatten

/-- All fourteen output filenames of one run. -/
def output_filenames (input_file : String) : List String :=
  summary_output_file input_file :: bstrap_output_file input_file ::
    png_output_files input_file

/-- The one exception type the script handles (source lines 271-287). -/
inductive PyExc
  | zeroDivisionError
deriving DecidableEq

/-- Python's `/` on a sum and a length: raises `ZeroDivisionError` when the
denominator is zero. -/
def py_div (a : ℚ) (n : ℕ) : Except PyExc ℚ :=
  if n = 0 then .error .zeroDivisionError else .ok (a / (n : ℚ))

/-- Source lines 271-287, one `try`/`except` block:
`means.append(sum(l)/len(l))`, with `except ZeroDivisionError:
means.append(numpy.nan)`.  `none` stands for the appended `numpy.nan`. -/
def mean_with_recovery (l : List ℚ) : Option ℚ :=
  match py_div l.sum l.length with
  | .ok v => some v
  | .error .zeroDivisionError => none

/-- The same statement with no `except` clause: what the computation does when
no exception is caught — the claimed behaviour of every non-warning site. -/
def mean_no_recovery (l : List ℚ) : Except PyExc ℚ :=
  py_div l.sum l.length

/-- `numpy.mean` over a (bootstrap) array: the value (`none` is `numpy.nan`)
paired with whether the empty-slice `RuntimeWarning` is emitted. -/
def np_mean (l : List ℚ) : Option ℚ × Bool :=
  if l.length = 0 then (none, true) else (some (l.sum / (l.length : ℚ)), false)

/-- Source lines 355-360 and 466-471: the summary statistic is computed under
`warnings.simplefilter("ignore")`, so the warning is dropped and only the
value (possibly NaN) survives. -/
def summary_stat (l : List ℚ) : Option ℚ := (np_mean l).1

/-- A Python list object on the heap: either a list of strings (a data row)
or a list of numbers (a `locXX` accumulator or a converted sample). -/
inductive PyObj
  | strs : List String → PyObj
  | rats : List ℚ → PyObj
deriving DecidableEq

/-- The store of list objects, addressed by position. -/
abbrev Heap := List PyObj

/-- Dereference a numeric list. -/
def readRats (σ : Heap) (r : ℕ) : List ℚ :=
  match σ.getD r (.rats []) with
  | .rats l => l
  | .strs _ => []

/-- Dereference a string list (a data row). -/
def readStrs (σ : Heap) (r : ℕ) : List String :=
  match σ.getD r (.strs []) with
  | .strs l => l
  | .rats _ => []

/-- `locXX.append(v)`: an in-place write to the cell `r`. -/
def appendRat (σ : Heap) (r : ℕ) (v : ℚ) : Heap :=
  σ.set r (.rats (readRats σ r ++ [v]))

/-- Store-passing replay of `bstrap` (source lines 84-148): the samples live on
the heap at `dataRefs`; each comprehension `dataXX = [float(x)/numr8tr for x
in dataXX]` (run only for a non-empty sample) allocates a fresh list object
and rebinds the local name, and no existing cell is ever written. -/
def bstrapS (σ : Heap) (bs_iter : ℕ) (pick : ℕ → ℕ → ℕ → ℕ)
    (dataRefs : List ℕ) : Heap × Except String (List (List ℚ)) :=
  if dataRefs.length = 4 ∨ dataRefs.length = 5 then
    let numr8tr : ℚ := if dataRefs.length = 4 then 1 else 1000
    let σ1 := σ ++ ((dataRefs.filter (fun r => 0 < (readRats σ r).length)).map
      (fun r => PyObj.rats ((readRats σ r).map (fun x => x / numr8tr))))
    (σ1, .ok ((List.range dataRefs.length).map (fun d =>
      let ds := readRats σ (dataRefs.getD d 0)
      if 0 < ds.length then
        (List.range bs_iter).map (fun i =>
          ((List.range ds.length).map (fun j => (ds.getD (pick d i j) 0) / numr8tr)).sum
            / (ds.length : ℚ))
      else [])))
  else (σ, .error "Number of Decades should be 4 or 5")

/-- Store-passing replay of `loc_average` (source lines 161-242): the rows of
`regions[m]` live on the heap at `rowRefs` and are only read; the `locXX`
accumulators are allocated fresh (lines 183/185) and then mutated in place by
`append` (lines 224-236), and the returned lists are the final copies
`locXX[:]` (lines 240-242). -/
def loc_averageS (val : String → ℚ) (σ0 : Heap) (rowRefs : List ℕ) (s e : ℕ) :
    Heap × Except LocErr (List (List ℚ)) :=
  let rows := rowRefs.map (readStrs σ0)
  let cols := columns rows
  match cols with
  | [] => (σ0, .error .indexError)
  | loc_name :: _ =>
    if e - s = 4 ∨ e - s = 5 then
      let sliced := (cols.drop s).take (e - s)
      if sliced.length = e - s then
        let locRefs := (List.range (e - s)).map (fun c => σ0.length + c)
        let σ1 := σ0 ++ (List.range (e - s)).map (fun _ => PyObj.rats [])
        let σ2 := (uniqueNames loc_name).foldl (fun σ name =>
          (List.range (e - s)).foldl (fun σ c =>
            match locContrib val (locEntries loc_name (sliced.getD c []) name) with
            | some v => appendRat σ (σ0.length + c) v
            | none => σ) σ) σ1
        (σ2, .ok (locRefs.map (fun r => readRats σ2 r)))
      else (σ0, .error .valueError)
    else (σ0, .error .decadeError)

lemma getD_range_map {α : Type} (f : ℕ → α) (n d : ℕ) (h : d < n) (x : α) :
    ((List.range n).map f).getD d x = f d := by
  rw [List.getD_eq_getElem?_getD, List.getElem?_map, List.getElem?_range h]
  rfl

lemma sumSub_go (val : String → ℚ) (vals : List String) (a : ℚ) (b : ℕ) :
    vals.foldl
      (fun acc x => if isBlank x then (acc.1, acc.2 + 1) else (acc.1 + val x, acc.2))
      (a, b)
      = (a + ((vals.filter (fun x => !(isBlank x))).map val).sum,
         b + (vals.filter isBlank).length) := by
  induction vals generalizing a b with
  | nil => simp
  | cons h t ih =>
    by_cases hb : isBlank h
    · simp [List.foldl_cons, hb, List.filter_cons, ih, Prod.ext_iff]
      omega
    · simp [List.foldl_cons, hb, List.filter_cons, ih, Prod.ext_iff, add_assoc]

lemma sumSub_eq (val : String → ℚ) (vals : List String) :
    sumSub val vals
      = (((vals.filter (fun x => !(isBlank x))).map val).sum,
         (vals.filter isBlank).length) := by
  have := sumSub_go val vals 0 0
  simpa [sumSub] using this

lemma filter_length_split (l : List String) :
    l.length - (l.filter isBlank).length
      = (l.filter (fun x => !(isBlank x))).length := by
  have h := List.length_eq_length_filter_add (l := l) isBlank
  omega

lemma locContrib_eq (val : String → ℚ) (vals : List String) :
    locContrib val vals
      = (let valid := vals.filter (fun x => !(isBlank x))
        if valid.length = 0 then none
        else some ((valid.map val).sum / (valid.length : ℚ))) := by
  simp only [locContrib, sumSub_eq, filter_length_split]
  by_cases h : (vals.filter (fun x => !(isBlank x))).length = 0
  · simp [h]
  · simp [h, Nat.pos_of_ne_zero h]

lemma foldl_min_ge (e : ℕ) (rs : List Row) (a : ℕ) (ha : e ≤ a)
    (h : ∀ q ∈ rs, e ≤ q.length) :
    e ≤ rs.foldl (fun b q => min b q.length) a := by
  induction rs generalizing a with
  | nil => simpa using ha
  | cons r t ih =>
    simp only [List.foldl_cons]
    exact ih _ (le_min ha (h r (by simp))) (fun q hq => h q (by simp [hq]))

lemma minRowLen_ge (rows : List Row) (e : ℕ) (hne : rows ≠ [])
    (hlen : ∀ r ∈ rows, e ≤ r.length) : e ≤ minRowLen rows := by
  match rows, hne with
  | r :: rs, _ =>
    exact foldl_min_ge e rs r.length (hlen r (by simp)) (fun q hq => hlen q (by simp [hq]))

lemma columns_length (rows : List Row) : (columns rows).length = minRowLen rows := by
  simp [columns]

lemma columns_getElem? (rows : List Row) (i : ℕ) (h : i < minRowLen rows) :
    (columns rows)[i]? = some (rows.map (fun r => r.getD i "")) := by
  simp only [columns, List.getElem?_map, List.getElem?_range h]
  rfl

lemma sliced_eq (rows : List Row) (s e : ℕ) (hmin : e ≤ minRowLen rows) :
    ((columns rows).drop s).take (e - s)
      = (List.range (e - s)).map (fun c => rows.map (fun r => r.getD (s + c) "")) := by
  apply List.ext_getElem?
  intro i
  by_cases hi : i < e - s
  · have hsi : s + i < minRowLen rows := by omega
    rw [List.getElem?_take, if_pos hi, List.getElem?_drop, columns_getElem? rows _ hsi,
      List.getElem?_map, List.getElem?_range hi]
    rfl
  · have h1 : ((( columns rows).drop s).take (e - s)).length ≤ i := by
      rw [List.length_take]; omega
    have h2 : ((List.range (e - s)).map
        (fun c => rows.map (fun r => r.getD (s + c) ""))).length ≤ i := by
      simp; omega
    rw [List.getElem?_eq_none h1, List.getElem?_eq_none h2]

lemma loc_average_ok (val : String → ℚ) (regions : List (List Row)) (m s e : ℕ)
    (h45 : e - s = 4 ∨ e - s = 5)
    (hne : regions.getD m [] ≠ [])
    (hlen : ∀ r ∈ regions.getD m [], e ≤ r.length) :
    loc_average val regions m s e =
      .ok ((List.range (e - s)).map (fun c =>
        decadeList val ((regions.getD m []).map (fun r => r.getD 0 ""))
          ((regions.getD m []).map (fun r => r.getD (s + c) "")))) := by
  have hes : 4 ≤ e - s := by omega
  have hse : s ≤ e := by omega
  have hmin : e ≤ minRowLen (regions.getD m []) := minRowLen_ge _ e hne hlen
  have hpos : 0 < minRowLen (regions.getD m []) := by omega
  have hcols0 : (columns (regions.getD m []))[0]?
      = some ((regions.getD m []).map (fun r => r.getD 0 "")) :=
    columns_getElem? _ 0 hpos
  obtain ⟨c0, rest, hcols⟩ : ∃ c0 rest, columns (regions.getD m []) = c0 :: rest := by
    match hc : columns (regions.getD m []) with
    | [] => rw [hc] at hcols0; simp at hcols0
    | c0 :: rest => exact ⟨c0, rest, rfl⟩
  have hc0 : c0 = (regions.getD m []).map (fun r => r.getD 0 "") := by
    rw [hcols] at hcols0; simpa using hcols0
  have hslen : (((columns (regions.getD m [])).drop s).take (e - s)).length = e - s := by
    rw [List.length_take, List.length_drop, columns_length]; omega
  simp only [loc_average]
  rw [hcols]
  simp only [if_pos h45]
  rw [← hcols, if_pos hslen, hc0, sliced_eq _ s e hmin, List.map_map]
  rfl

/-- The specification's reading of `loc_average` (claim C2): for each of the
`e - s` decade columns, the list holding — for each unique location name of
`regions[m]` in order of first occurrence that has at least one valid
(non-blank) entry in that column — the arithmetic mean of `val x` over that
location's valid entries `x` in that column. -/
def loc_average_spec (val : String → ℚ) (regions : List (List Row)) (m s e : ℕ) :
    List (List ℚ) :=
  let rows := regions.getD m []
  let names := rows.map (fun r => r.getD 0 "")
  (List.range (e - s)).map (fun c =>
    (uniqueNames names).filterMap (fun name =>
      let valid := (locEntries names (rows.map (fun r => r.getD (s + c) "")) name).filter
          (fun x => !(isBlank x))
      if valid.length = 0 then none
      else some ((valid.map val).sum / (valid.length : ℚ))))

/-- Claim C2: for every call `loc_average(regions, m, s, e)` with `e - s` equal
to 4 or 5 (on a non-empty region whose rows reach column `e`, so that the call
returns), the returned list for each decade column contains, for each unique
location name of `regions[m]` taken in order of first occurrence that has at
least one valid (non-blank) entry in that column, the arithmetic mean of the
values of that location's valid entries in that column. -/
theorem loc_average_unique_location_means (val : String → ℚ)
    (regions : List (List Row)) (m s e : ℕ)
    (h45 : e - s = 4 ∨ e - s = 5)
    (hne : regions.getD m [] ≠ [])
    (hlen : ∀ r ∈ regions.getD m [], e ≤ r.length) :
    loc_average val regions m s e = .ok (loc_average_spec val regions m s e) := by
  rw [loc_average_ok val regions m s e h45 hne hlen, loc_average_spec]
  simp only [decadeList, locContrib_eq]

/-- Witness for C2 at a concrete region table. -/
theorem loc_average_unique_location_means_witness :
    loc_average (fun c => ((c.toNat?).getD 0 : ℚ))
        [[["A", "u", "N Am", "2", "10"], ["A", "u", "N Am", "4", ""],
          ["B", "v", "N Am", "6", " "]]] 0 1 5
      = .ok (loc_average_spec (fun c => ((c.toNat?).getD 0 : ℚ))
        [[["A", "u", "N Am", "2", "10"], ["A", "u", "N Am", "4", ""],
          ["B", "v", "N Am", "6", " "]]] 0 1 5) :=
  loc_average_unique_location_means _ _ 0 1 5 (by decide) (by decide) (by decide)

lemma not_isBlank_eq (x : String) :
    decide (x ≠ "" ∧ x ≠ " ") = !(isBlank x) := by
  by_cases h1 : x = ""
  · simp [h1, isBlank]
  · by_cases h2 : x = " "
    · simp [h1, h2, isBlank]
    · simp [h1, h2, isBlank]

/-- Claim C3: in `loc_average`, an entry equal to `""` or `" "` counts as
missing — it is excluded from both the numerator sum and the denominator count
of its location's mean for a decade column, and a location all of whose
entries in a column are missing contributes no element to that column's
returned list; consequently the per-decade lists can have different lengths. -/
theorem loc_average_blank_handling (val : String → ℚ) (loc_name dataCol : List String) :
    (decadeList val loc_name dataCol
      = (uniqueNames loc_name).filterMap (fun name =>
          let valid := (locEntries loc_name dataCol name).filter
              (fun x => decide (x ≠ "" ∧ x ≠ " "))
          if valid.length = 0 then none
          else some ((valid.map val).sum / (valid.length : ℚ))))
    ∧ (∃ (v : String → ℚ) (ln c1 c2 : List String),
        (decadeList v ln c1).length ≠ (decadeList v ln c2).length) := by
  constructor
  · simp only [decadeList, locContrib_eq, not_isBlank_eq]
  · exact ⟨fun _ => 0, ["A"], ["1"], [""], by decide⟩

/-- Witness for C3 at a concrete column. -/
theorem loc_average_blank_handling_witness :
    decadeList (fun _ => (3 : ℚ)) ["A", "A", "B"] ["x", "", " "]
      = (uniqueNames ["A", "A", "B"]).filterMap (fun name =>
          let valid := (locEntries ["A", "A", "B"] ["x", "", " "] name).filter
              (fun x => decide (x ≠ "" ∧ x ≠ " "))
          if valid.length = 0 then none
          else some ((valid.map (fun _ => (3 : ℚ))).sum / (valid.length : ℚ))) :=
  (loc_average_blank_handling (fun _ => (3 : ℚ)) ["A", "A", "B"] ["x", "", " "]).1

lemma getD_map_div (l : List ℚ) (c : ℚ) (k : ℕ) :
    (l.map (fun x => x / c)).getD k 0 = l.getD k 0 / c := by
  rcases Nat.lt_or_ge k l.length with h | h
  · rw [List.getD_eq_getElem?_getD, List.getElem?_map, List.getElem?_eq_getElem h,
      List.getD_eq_getElem?_getD, List.getElem?_eq_getElem h]
    rfl
  · rw [List.getD_eq_default, List.getD_eq_default]
    · simp
    · exact h
    · simpa using h

lemma bstrap_ok (bs_iter : ℕ) (pick : ℕ → ℕ → ℕ → ℕ) (data : List (List ℚ))
    (h45 : data.length = 4 ∨ data.length = 5) :
    bstrap bs_iter pick data
      = .ok ((List.range data.length).map (fun d =>
          let ds := data.getD d []
          if 0 < ds.length then
            (List.range bs_iter).map (fun i =>
              ((List.range ds.length).map
                (fun j => (ds.map (fun x => x / (if data.length = 4 then 1 else 1000))).getD (pick d i j) 0)).sum
                / (ds.length : ℚ))
          else [])) := by
  rw [bstrap, if_pos h45]

/-- Claim C1: for every call `bstrap(bs_iter, d1, ..., dk)` with `k` equal to 4
or 5 and every realization `pick` of the with-replacement sampler: the call
returns `k` arrays; for each non-empty input sample of `N` elements the
corresponding array has exactly `bs_iter` entries, each entry being the
arithmetic mean of the `N` drawn values of the unit-scaled sample (every drawn
value a member of the scaled sample); for each empty input sample the
corresponding array is empty. -/
theorem bstrap_bootstrap_means (bs_iter : ℕ) (pick : ℕ → ℕ → ℕ → ℕ)
    (data : List (List ℚ))
    (h45 : data.length = 4 ∨ data.length = 5)
    (hpick : ∀ d i j, d < data.length → 0 < (data.getD d []).length →
      pick d i j < (data.getD d []).length) :
    ∃ out, bstrap bs_iter pick data = .ok out ∧ out.length = data.length ∧
      ∀ d, d < data.length →
        ((data.getD d [] = [] → out.getD d [] = []) ∧
         (data.getD d [] ≠ [] →
           (out.getD d []).length = bs_iter ∧
           ∀ i, i < bs_iter →
             (out.getD d []).getD i 0 =
               ((List.range (data.getD d []).length).map
                 (fun j => (data.getD d []).getD (pick d i j) 0
                   / (if data.length = 4 then 1 else 1000))).sum
                 / (((data.getD d []).length : ℕ) : ℚ) ∧
             ∀ j, j < (data.getD d []).length →
               (data.getD d []).getD (pick d i j) 0
                 / (if data.length = 4 then 1 else 1000)
                 ∈ (data.getD d []).map
                     (fun x => x / (if data.length = 4 then 1 else 1000)))) := by
  refine ⟨_, bstrap_ok bs_iter pick data h45, by simp, ?_⟩
  intro d hd
  rw [getD_range_map _ _ _ hd]
  constructor
  · intro hnil
    rw [hnil]
    simp
  · intro hne
    have hpos : 0 < (data.getD d []).length := List.length_pos.mpr hne
    rw [if_pos hpos]
    refine ⟨by simp, ?_⟩
    intro i hi
    rw [getD_range_map _ _ _ hi]
    constructor
    · have hmap : (List.range (data.getD d []).length).map
          (fun j => ((data.getD d []).map
            (fun x => x / (if data.length = 4 then 1 else 1000))).getD (pick d i j) 0)
          = (List.range (data.getD d []).length).map
            (fun j => (data.getD d []).getD (pick d i j) 0
              / (if data.length = 4 then 1 else 1000)) :=
        List.map_congr_left (fun j _ => getD_map_div _ _ _)
      rw [hmap]
    · intro j hj
      have hk := hpick d i j hd hpos
      have : (data.getD d []).getD (pick d i j) 0 = (data.getD d [])[pick d i j] := by
        rw [List.getD_eq_getElem?_getD, List.getElem?_eq_getElem hk]
        rfl
      rw [this]
      exact List.mem_map.mpr ⟨_, List.getElem_mem hk, rfl⟩

/-- Witness for C1 at a concrete call with four samples, one of them empty. -/
theorem bstrap_bootstrap_means_witness :
    ∃ out, bstrap 2 (fun _ _ _ => 0) [[2, 4], [6], [], [8]] = .ok out ∧
      out.length = 4 := by
  obtain ⟨out, h1, h2, _⟩ := bstrap_bootstrap_means 2 (fun _ _ _ => 0)
      [[2, 4], [6], [], [8]] (by decide) (fun _ _ _ _ h => h)
  exact ⟨out, h1, by simpa using h2⟩

lemma sum_map_div (f : ℕ → ℚ) (l : List ℕ) (c : ℚ) :
    (l.map (fun j => f j / c)).sum = (l.map f).sum / c := by
  induction l with
  | nil => simp
  | cons a t ih => simp [ih, add_div]

/-- Claim C10: with exactly 5 data samples every value (the fifth sample
included) is divided by 1000 before resampling, so each returned bootstrap
mean is 1/1000 of the mean of the corresponding raw draws; with exactly 4
data samples the values enter the resampling unscaled. -/
theorem bstrap_scaling (bs_iter : ℕ) (pick : ℕ → ℕ → ℕ → ℕ)
    (data : List (List ℚ)) :
    (data.length = 5 →
      ∃ out, bstrap bs_iter pick data = .ok out ∧
        ∀ d, d < 5 → ∀ i, i < bs_iter → 0 < (data.getD d []).length →
          (out.getD d []).getD i 0
            = (1 / 1000) *
              (((List.range (data.getD d []).length).map
                  (fun j => (data.getD d []).getD (pick d i j) 0)).sum
                / (((data.getD d []).length : ℕ) : ℚ)))
    ∧ (data.length = 4 →
      ∃ out, bstrap bs_iter pick data = .ok out ∧
        ∀ d, d < 4 → ∀ i, i < bs_iter → 0 < (data.getD d []).length →
          (out.getD d []).getD i 0
            = ((List.range (data.getD d []).length).map
                  (fun j => (data.getD d []).getD (pick d i j) 0)).sum
                / (((data.getD d []).length : ℕ) : ℚ)) := by
  constructor
  · intro h5
    refine ⟨_, bstrap_ok bs_iter pick data (Or.inr h5), ?_⟩
    intro d hd i hi hpos
    have hd' : d < data.length := by omega
    rw [getD_range_map _ _ _ hd']
    simp only [if_pos hpos]
    rw [getD_range_map _ _ _ hi]
    have hsc : (if data.length = 4 then (1 : ℚ) else 1000) = 1000 := by
      rw [h5]; rfl
    rw [hsc]
    have hmap : (List.range (data.getD d []).length).map
        (fun j => ((data.getD d []).map (fun x => x / (1000 : ℚ))).getD (pick d i j) 0)
        = (List.range (data.getD d []).length).map
          (fun j => (data.getD d []).getD (pick d i j) 0 / (1000 : ℚ)) :=
      List.map_congr_left (fun j _ => getD_map_div _ _ _)
    rw [hmap, sum_map_div (fun j => (data.getD d []).getD (pick d i j) 0)]
    rw [div_div]
    ring
  · intro h4
    refine ⟨_, bstrap_ok bs_iter pick data (Or.inl h4), ?_⟩
    intro d hd i hi hpos
    have hd' : d < data.length := by omega
    rw [getD_range_map _ _ _ hd']
    simp only [if_pos hpos]
    rw [getD_range_map _ _ _ hi]
    have hsc : (if data.length = 4 then (1 : ℚ) else 1000) = 1 := by
      rw [h4]; rfl
    rw [hsc]
    have hmap : (List.range (data.getD d []).length).map
        (fun j => ((data.getD d []).map (fun x => x / (1 : ℚ))).getD (pick d i j) 0)
        = (List.range (data.getD d []).length).map
          (fun j => (data.getD d []).getD (pick d i j) 0) := by
      apply List.map_congr_left
      intro j _
      rw [getD_map_div, div_one]
    rw [hmap]

/-- Witness for C10: a five-sample call at concrete data. -/
theorem bstrap_scaling_witness :
    ∃ out, bstrap 1 (fun _ _ _ => 0) [[2], [4], [6], [8], [10]] = .ok out ∧
      (out.getD 4 []).getD 0 0 = (1 / 1000) * 10 := by
  obtain ⟨out, h1, h2⟩ :=
    (bstrap_scaling 1 (fun _ _ _ => 0) [[2], [4], [6], [8], [10]]).1 rfl
  refine ⟨out, h1, ?_⟩
  have h := h2 4 (by decide) 0 (by decide) (by decide)
  simpa using h

/-- Claim C4, amended: `bstrap` returns a tuple of `len(data)` arrays exactly
when the number of samples is 4 or 5 (otherwise it raises); `loc_average`
raises whenever `e - s` is neither 4 nor 5; and for `e - s` equal to 4 or 5 it
returns a tuple of `e - s` collections provided `regions[m]` is non-empty and
every row reaches column `e` (an empty `regions[m]` raises `IndexError` at
`list(zip(*regions[m]))[0]` instead, and too-short rows fail the unpacking). -/
theorem decade_count_errors (bs_iter : ℕ) (pick : ℕ → ℕ → ℕ → ℕ)
    (data : List (List ℚ)) (val : String → ℚ) (regions : List (List Row))
    (m s e : ℕ) :
    ((data.length = 4 ∨ data.length = 5) ↔
      ∃ out, bstrap bs_iter pick data = .ok out ∧ out.length = data.length)
    ∧ ((e - s ≠ 4 ∧ e - s ≠ 5) → ∀ L, loc_average val regions m s e ≠ .ok L)
    ∧ ((e - s = 4 ∨ e - s = 5) → regions.getD m [] ≠ [] →
        (∀ r ∈ regions.getD m [], e ≤ r.length) →
        ∃ L, loc_average val regions m s e = .ok L ∧ L.length = e - s) := by
  refine ⟨⟨fun h45 => ⟨_, bstrap_ok bs_iter pick data h45, by simp⟩, ?_⟩, ?_, ?_⟩
  · rintro ⟨out, hok, -⟩
    by_contra h
    rw [bstrap, if_neg h] at hok
    cases hok
  · intro h L
    simp only [loc_average]
    rcases hcc : columns (regions.getD m []) with _ | ⟨c0, rest⟩
    · simp
    · have : ¬(e - s = 4 ∨ e - s = 5) := by tauto
      simp [this]
  · intro h45 hne hlen
    exact ⟨_, loc_average_ok val regions m s e h45 hne hlen, by simp⟩

/-- Witness for C4 (amended) at concrete calls. -/
theorem decade_count_errors_witness :
    ∃ L, loc_average (fun _ => 1) [[["A", "b", "c", "d", "e"]]] 0 0 4 = .ok L ∧
      L.length = 4 := by
  obtain ⟨L, h1, h2⟩ := (decade_count_errors 1 (fun _ _ _ => 0) [[1], [1], [1], [1]]
      (fun _ => 1) [[["A", "b", "c", "d", "e"]]] 0 0 4).2.2
      (by decide) (by decide) (by decide)
  exact ⟨L, h1, by simpa using h2⟩

/-- Counterexample to C4 as stated: the decade count `13 - 9 = 4` is right,
yet the call on an empty `regions[0]` raises `IndexError` (from
`list(zip(*regions[m]))[0]`) and returns no tuple at all. -/
theorem decade_count_errors_counterexample :
    (13 : ℕ) - 9 = 4 ∧
    loc_average (fun _ => 0) [([] : List Row)] 0 9 13 = .error .indexError :=
  ⟨rfl, rfl⟩

/-- Claim C5, amended: the script recovers from exactly two anticipated
numeric anomalies — the `ZeroDivisionError` of averaging an empty
location-average list, recovered by recording NaN (`none`), and the
empty-array `RuntimeWarning` of `numpy.mean`, suppressed by the warnings
filter; each fires exactly on the empty list, and non-empty lists give the
plain mean. -/
theorem numeric_recovery (l : List ℚ) :
    (mean_with_recovery l = none ↔ l = []) ∧
    (l ≠ [] → mean_with_recovery l = some (l.sum / (l.length : ℚ))) ∧
    ((np_mean l).2 = true ↔ l = []) ∧
    (summary_stat l = none ↔ l = []) := by
  rcases l with _ | ⟨x, t⟩
  · simp [mean_with_recovery, py_div, np_mean, summary_stat]
  · simp [mean_with_recovery, py_div, np_mean, summary_stat]

/-- Witness for C5 (amended) at a concrete non-empty list. -/
theorem numeric_recovery_witness :
    mean_with_recovery [2, 4]
      = some ((([2, 4] : List ℚ).sum) / ((([2, 4] : List ℚ).length : ℕ) : ℚ)) :=
  (numeric_recovery [2, 4]).2.1 (by decide)

/-- Counterexample to C5 as stated: besides the suppressed warning, the
`try`/`except ZeroDivisionError` blocks (source lines 271-287) catch the
division error raised for an empty location-average list and recover by
appending NaN — an exception other than the expected numeric warning is
caught and recovered from. -/
theorem numeric_recovery_counterexample :
    mean_with_recovery [] = none ∧
    mean_no_recovery [] = .error .zeroDivisionError :=
  ⟨rfl, rfl⟩

lemma getD_map_filter {α : Type} (p : α → Bool) (l : List (List α)) (m : ℕ) :
    (l.map (fun t => t.filter p)).getD m [] = (l.getD m []).filter p := by
  rcases Nat.lt_or_ge m l.length with h | h
  · rw [List.getD_eq_getElem?_getD, List.getElem?_map, List.getElem?_eq_getElem h,
      List.getD_eq_getElem?_getD, List.getElem?_eq_getElem h]
    rfl
  · rw [List.getD_eq_default, List.getD_eq_default]
    · rfl
    · exact h
    · simpa using h

lemma count_filter_split {α : Type} [BEq α] (p q : α → Bool)
    (hpq : ∀ x, q x = !(p x)) (l : List α) (a : α) :
    (l.filter p).count a + (l.filter q).count a = l.count a := by
  induction l with
  | nil => simp
  | cons x t ih =>
    by_cases hp : p x
    · simp only [List.filter_cons, hp, hpq x, if_pos, Bool.not_true, if_neg,
        Bool.false_eq_true, List.count_cons, ite_true, ite_false]
      omega
    · have hq : q x = true := by rw [hpq x]; simp [hp]
      simp only [List.filter_cons, hp, hq, if_pos, Bool.false_eq_true, if_neg,
        List.count_cons, ite_true, ite_false]
      omega

/-- Claim C6: with every ninth-column field given a numeric value by `val`,
membership in the `above` cohort of a region is exactly `2000 < value`,
membership in the `below` cohort is exactly `value ≤ 2000`, the two cohorts
are disjoint, and together (with multiplicity) they exhaust the `all`
cohort. -/
theorem cohort_partition (val : String → ℚ) (allregions : List (List Row))
    (m : ℕ) (x : Row) :
    (x ∈ (aboveregions val allregions).getD m [] ↔
      x ∈ allregions.getD m [] ∧ 2000 < val (x.getD 8 "")) ∧
    (x ∈ (belowregions val allregions).getD m [] ↔
      x ∈ allregions.getD m [] ∧ val (x.getD 8 "") ≤ 2000) ∧
    ¬(x ∈ (aboveregions val allregions).getD m [] ∧
      x ∈ (belowregions val allregions).getD m []) ∧
    ((aboveregions val allregions).getD m []).count x
      + ((belowregions val allregions).getD m []).count x
      = (allregions.getD m []).count x := by
  have ha : (aboveregions val allregions).getD m []
      = (allregions.getD m []).filter (fun y => decide (2000 < val (y.getD 8 ""))) :=
    getD_map_filter _ _ _
  have hb : (belowregions val allregions).getD m []
      = (allregions.getD m []).filter (fun y => decide (val (y.getD 8 "") ≤ 2000)) :=
    getD_map_filter _ _ _
  refine ⟨?_, ?_, ?_, ?_⟩
  · rw [ha]; simp [List.mem_filter]
  · rw [hb]; simp [List.mem_filter]
  · rintro ⟨h1, h2⟩
    rw [ha] at h1
    rw [hb] at h2
    have g1 := (List.mem_filter.mp h1).2
    have g2 := (List.mem_filter.mp h2).2
    simp only [decide_eq_true_eq] at g1 g2
    exact absurd g2 (not_le.mpr g1)
  · rw [ha, hb]
    refine count_filter_split _ _ (fun y => ?_) _ x
    by_cases h : 2000 < val (y.getD 8 "")
    · rw [decide_eq_true h, decide_eq_false (not_le.mpr h)]
      rfl
    · rw [decide_eq_false h, decide_eq_true (not_lt.mp h)]
      rfl

/-- Witness for C6 at a concrete single-row region. -/
theorem cohort_partition_witness :
    (["x", "x", "x", "x", "x", "x", "x", "x", "2500"] : Row) ∈
      (aboveregions (fun _ => (2500 : ℚ))
        [[["x", "x", "x", "x", "x", "x", "x", "x", "2500"]]]).getD 0 [] :=
  ((cohort_partition (fun _ => (2500 : ℚ))
      [[["x", "x", "x", "x", "x", "x", "x", "x", "2500"]]] 0
      ["x", "x", "x", "x", "x", "x", "x", "x", "2500"]).1).mpr
    ⟨by decide, by norm_num⟩

lemma regionsOf_getD (data_items : List Row) (i : ℕ) (h : i < region_unique.length) :
    (regionsOf data_items).getD i []
      = data_items.filter (fun dl => dl.getD 2 "" == region_unique.getD i "") := by
  have hg : region_unique.getD i "" = region_unique[i] := by
    rw [List.getD_eq_getElem?_getD, List.getElem?_eq_getElem h]
    rfl
  rw [regionsOf, List.getD_eq_getElem?_getD, List.getElem?_map,
    List.getElem?_eq_getElem h, hg]
  rfl

/-- Claim C7: each input row goes to the group whose keyword equals (string
equality) the row's third column: membership in the `i`-th group is exactly
membership in the input with a matching third column, groups preserve input
order (they are sublists of the input), there are ten groups, and a row whose
column matches keyword `i` is in no other group. -/
theorem region_grouping (data_items : List Row) (i : ℕ) (row : Row)
    (h : i < 10) :
    (regionsOf data_items).length = 10 ∧
    List.Sublist ((regionsOf data_items).getD i []) data_items ∧
    (row ∈ (regionsOf data_items).getD i [] ↔
      row ∈ data_items ∧ row.getD 2 "" = region_unique.getD i "") ∧
    (∀ j, j < 10 → j ≠ i → row.getD 2 "" = region_unique.getD i "" →
      row ∉ (regionsOf data_items).getD j []) := by
  have h' : i < region_unique.length := by
    simpa [region_unique] using h
  refine ⟨by simp [regionsOf, region_unique], ?_, ?_, ?_⟩
  · rw [regionsOf_getD _ _ h']
    exact List.filter_sublist _
  · rw [regionsOf_getD _ _ h']
    simp [List.mem_filter]
  · intro j hj hji hrow
    have hj' : j < region_unique.length := by
      simpa [region_unique] using hj
    rw [regionsOf_getD _ _ hj']
    intro hmem
    have hb := (List.mem_filter.mp hmem).2
    have heq : row.getD 2 "" = region_unique.getD j "" := by
      simpa using hb
    rw [hrow] at heq
    have hgi : region_unique.getD i "" = region_unique[i] := by
      rw [List.getD_eq_getElem?_getD, List.getElem?_eq_getElem h']
      rfl
    have hgj : region_unique.getD j "" = region_unique[j] := by
      rw [List.getD_eq_getElem?_getD, List.getElem?_eq_getElem hj']
      rfl
    rw [hgi, hgj] at heq
    have hnd : region_unique.Nodup := by decide
    exact hji ((List.Nodup.getElem_inj_iff hnd).mp heq).symm

/-- Witness for C7 at a concrete one-row table. -/
theorem region_grouping_witness :
    (["Lagos", "Nigeria", "Africa", "7"] : Row) ∈
      (regionsOf [["Lagos", "Nigeria", "Africa", "7"]]).getD 3 [] :=
  ((region_grouping [["Lagos", "Nigeria", "Africa", "7"]] 3
      ["Lagos", "Nigeria", "Africa", "7"] (by decide)).2.2.1).mpr
    ⟨by decide, by decide⟩

lemma string_pattern (o a b suff : String)
    (h : "_" ++ (a ++ ("_" ++ (b ++ ".png"))) = suff) :
    o ++ "_" ++ a ++ "_" ++ b ++ ".png" = o ++ suff := by
  rw [String.append_assoc, String.append_assoc, String.append_assoc,
    String.append_assoc, h]

/-- Claim C8: the output filenames are fixed functions of the input path alone
— the summary file is `regional_location_summary` plus the input extension in
the input directory, the spreadsheet is `regional_location_bstrap.xlsx` there,
the twelve PNG files are exactly the combinations
`{cohort stem}_{rates|PD}_{linear|log}.png` there, and any two input paths
with the same directory and extension produce identical output filenames (no
other content of the input affects them). -/
theorem output_filenames_fixed (input_file : String) :
    summary_output_file input_file
      = posixJoin (input_file_path input_file)
          ("regional_location_summary" ++ (posixSplitext input_file).2) ∧
    bstrap_output_file input_file
      = posixJoin (input_file_path input_file) "regional_location_bstrap.xlsx" ∧
    png_output_files input_file
      = [posixJoin (input_file_path input_file)
           ("regional_all_location" ++ "_" ++ "rates" ++ "_" ++ "linear" ++ ".png"),
         posixJoin (input_file_path input_file)
           ("regional_all_location" ++ "_" ++ "PD" ++ "_" ++ "linear" ++ ".png"),
         posixJoin (input_file_path input_file)
           ("regional_all_location" ++ "_" ++ "rates" ++ "_" ++ "log" ++ ".png"),
         posixJoin (input_file_path input_file)
           ("regional_all_location" ++ "_" ++ "PD" ++ "_" ++ "log" ++ ".png"),
         posixJoin (input_file_path input_file)
           ("regional_above_location" ++ "_" ++ "rates" ++ "_" ++ "linear" ++ ".png"),
         posixJoin (input_file_path input_file)
           ("regional_above_location" ++ "_" ++ "PD" ++ "_" ++ "linear" ++ ".png"),
         posixJoin (input_file_path input_file)
           ("regional_above_location" ++ "_" ++ "rates" ++ "_" ++ "log" ++ ".png"),
         posixJoin (input_file_path input_file)
           ("regional_above_location" ++ "_" ++ "PD" ++ "_" ++ "log" ++ ".png"),
         posixJoin (input_file_path input_file)
           ("regional_below_location" ++ "_" ++ "rates" ++ "_" ++ "linear" ++ ".png"),
         posixJoin (input_file_path input_file)
           ("regional_below_location" ++ "_" ++ "PD" ++ "_" ++ "linear" ++ ".png"),
         posixJoin (input_file_path input_file)
           ("regional_below_location" ++ "_" ++ "rates" ++ "_" ++ "log" ++ ".png"),
         posixJoin (input_file_path input_file)
           ("regional_below_location" ++ "_" ++ "PD" ++ "_" ++ "log" ++ ".png")] ∧
    (∀ p q : String, (posixSplit p).1 = (posixSplit q).1 →
      (posixSplitext p).2 = (posixSplitext q).2 →
      output_filenames p = output_filenames q) := by
  refine ⟨rfl, rfl, ?_, ?_⟩
  · simp only [png_output_files, opic_strings, png_output_file, input_file_path,
      List.map_cons, List.map_nil, List.flatten_cons, List.flatten_nil,
      List.cons_append, List.nil_append, List.append_nil, List.cons.injEq,
      and_true]
    refine ⟨?_, ?_, ?_, ?_, ?_, ?_, ?_, ?_, ?_, ?_, ?_, ?_⟩ <;>
      exact congrArg _ (string_pattern _ _ _ _ (by decide)).symm
  · intro p q hdir hext
    simp only [output_filenames, summary_output_file, bstrap_output_file,
      png_output_files, png_output_file, input_file_path, hdir, hext]

/-- Witness for C8 at a concrete input path. -/
theorem output_filenames_fixed_witness :
    summary_output_file "data/input.csv" = "data/regional_location_summary.csv" := by
  have h := (output_filenames_fixed "data/input.csv").1
  rw [h]
  rfl

lemma bstrapS_frame (σ : Heap) (bs_iter : ℕ) (pick : ℕ → ℕ → ℕ → ℕ)
    (dataRefs : List ℕ) (i : ℕ) (h : i < σ.length) :
    ((bstrapS σ bs_iter pick dataRefs).1)[i]? = σ[i]? := by
  rw [bstrapS]
  split
  · simp only
    rw [List.getElem?_append]
    simp [h]
  · rfl

lemma foldl_heap_pres {β : Type} (g : Heap → β → Heap) (l : List β) (i : ℕ)
    (hg : ∀ σ b, b ∈ l → ((g σ b))[i]? = σ[i]?) :
    ∀ σ : Heap, (l.foldl g σ)[i]? = σ[i]? := by
  induction l with
  | nil => intro σ; rfl
  | cons b t ih =>
    intro σ
    rw [List.foldl_cons, ih (fun τ c hc => hg τ c (by simp [hc])),
      hg σ b (by simp)]

lemma appendRat_frame (σ : Heap) (r : ℕ) (v : ℚ) (i : ℕ) (h : r ≠ i) :
    (appendRat σ r v)[i]? = σ[i]? := by
  rw [appendRat]
  exact List.getElem?_set_ne h

lemma loc_averageS_frame (val : String → ℚ) (σ0 : Heap) (rowRefs : List ℕ)
    (s e i : ℕ) (h : i < σ0.length) :
    ((loc_averageS val σ0 rowRefs s e).1)[i]? = σ0[i]? := by
  rw [loc_averageS]
  split
  · rfl
  · dsimp only
    split
    · split
      · simp only
        rw [foldl_heap_pres]
        · rw [List.getElem?_append]
          simp [h]
        · intro σ name _
          rw [foldl_heap_pres]
          intro τ c hc
          split
          · apply appendRat_frame
            omega
          · rfl
      · rfl
    · rfl

/-- Claim C9: replayed against an explicit store, neither `bstrap` nor
`loc_average` writes to any pre-existing heap cell — the argument samples and
the rows of `regions[m]` are unchanged, cell for cell, after either call;
both functions only allocate fresh list objects and append to them. -/
theorem core_functions_no_mutation (val : String → ℚ) (σ : Heap)
    (bs_iter : ℕ) (pick : ℕ → ℕ → ℕ → ℕ) (dataRefs rowRefs : List ℕ)
    (s e i : ℕ) (h : i < σ.length) :
    ((bstrapS σ bs_iter pick dataRefs).1)[i]? = σ[i]? ∧
    ((loc_averageS val σ rowRefs s e).1)[i]? = σ[i]? :=
  ⟨bstrapS_frame σ bs_iter pick dataRefs i h,
   loc_averageS_frame val σ rowRefs s e i h⟩

/-- Witness for C9 on a concrete two-cell heap. -/
theorem core_functions_no_mutation_witness :
    0 < ([PyObj.strs ["A", "2", "3", "4", "5", "6"], PyObj.rats [7]] : Heap).length ∧
    ((bstrapS [PyObj.strs ["A", "2", "3", "4", "5", "6"], PyObj.rats [7]] 2
        (fun _ _ _ => 0) [1, 1, 1, 1]).1)[0]?
      = ([PyObj.strs ["A", "2", "3", "4", "5", "6"], PyObj.rats [7]] : Heap)[0]? ∧
    ((loc_averageS (fun _ => 1) [PyObj.strs ["A", "2", "3", "4", "5", "6"], PyObj.rats [7]]
        [0] 1 5).1)[0]?
      = ([PyObj.strs ["A", "2", "3", "4", "5", "6"], PyObj.rats [7]] : Heap)[0]? :=
  ⟨by decide,
   core_functions_no_mutation (fun _ => 1)
     [PyObj.strs ["A", "2", "3", "4", "5", "6"], PyObj.rats [7]] 2
     (fun _ _ _ => 0) [1, 1, 1, 1] [0] 1 5 0 (by decide)⟩
